import Mathlib

/-!
Verification development for the ScummVM-for-Yuza virtual-filesystem slice:
`common/file.cpp` (read/write file handles and archive-resolver lookups) and
`backends/fs/yuza/yuza-fs.cpp` (the platform node backend and the directory
bootstrap utility `Posix::assureDirectoryExists`).

Modelling conventions:
* The filesystem world is a finite association list from path strings to the
  `st_mode` reported by `stat`.  In this port a directory reports
  `st_mode == 0` (see `YuzaFilesystemNode::setFlags`, yuza-fs.cpp line 83, and
  the EEXIST branch of `assureDirectoryExists`, line 405).
* C `assert(...)` failures and a dereference of a null stream handle are
  modelled as the distinguished outcomes `Res.assertFail` and `Res.nullDeref`
  of the `Res` result type; normal completion is `Res.ok`.
* Underlying stream objects (`SeekableReadStream` / `WriteStream`, whose
  sources are outside this slice) are abstracted as integer ids interpreted
  through a `StreamEnv` of response functions; the handles under scrutiny only
  delegate to them.
-/

/-- Outcome of running a modelled C++ member function: a tripped `assert`,
a dereference of a null `_handle`, or a normal result. -/
inductive Res (α : Type) where
  | assertFail : Res α
  | nullDeref : Res α
  | ok : α → Res α
deriving DecidableEq

/-- Filesystem world: association list mapping a path to the `st_mode`
that `stat` reports for it (absent path = `stat` fails). -/
abbrev FS : Type := List (String × Nat)

/-- Result of `stat(p, &sb)` in the world `fs`: `some mode` on success. -/
def statL : FS → String → Option Nat
  | [], _ => none
  | (q, m) :: fs, p => if q = p then some m else statL fs p

/-- The POSIX `S_ISDIR` macro on a raw `st_mode` word
(`(m & S_IFMT) == S_IFDIR`); used only by the prefix check of
`Posix::assureDirectoryExists` (yuza-fs.cpp line 364). -/
def sIsDir (m : Nat) : Bool := (m &&& 61440) == 16384

/-- Characters of `cs` up to and including the last '/'; `[]` when `cs`
contains no '/'.  This is exactly the prefix `String(start, end)` computed by
`YuzaFilesystemNode::getParent` (yuza-fs.cpp lines 321-337). -/
def parentKeepChars (cs : List Char) : List Char :=
  ((cs.reverse).dropWhile (fun c => c != '/')).reverse

/-- Split a character list on '/' into components (separators dropped). -/
def splitSlash : List Char → List (List Char)
  | [] => [[]]
  | c :: rest =>
    if c = '/' then [] :: splitSlash rest
    else
      match splitSlash rest with
      | g :: gs => (c :: g) :: gs
      | [] => [[c]]

/-- Join components with '/'. -/
def joinSlash : List (List Char) → List Char
  | [] => []
  | [g] => g
  | g :: rest => g ++ '/' :: joinSlash rest

/-- Modelled from the spec: `Common::normalizePath(path, '/')` is called by the
node constructor and by `assureDirectoryExists` but its source is not part of
this slice.  Per the spec the stored path is kept "in a canonical
slash-normalized form": empty and "." components are dropped and a leading
slash is preserved, so duplicate and trailing separators disappear. -/
def normalizeModel (p : String) : String :=
  let comps := (splitSlash p.data).filter (fun g => g ≠ [] ∧ g ≠ ['.'])
  let lead : List Char := if p.data.head? = some '/' then ['/'] else []
  String.mk (lead ++ joinSlash comps)

/-- Modelled from the spec: `Common::lastPathComponent(path, '/')` (source not
in this slice); the spec defines the display name as the last path
component. -/
def lastComponentModel (p : String) : String :=
  String.mk ((((splitSlash p.data).filter (fun g => g ≠ [])).getLast?).getD [])

/-- State of a `YuzaFilesystemNode`: the stored (normalized) path, the display
name, and the cached `_isValid` / `_isDirectory` flags. -/
structure YuzaFilesystemNode where
  path : String
  displayName : String
  isValid : Bool
  isDirectory : Bool
deriving DecidableEq

/-- `YuzaFilesystemNode::setFlags` (yuza-fs.cpp lines 77-84): `_isValid` is
whether `stat` succeeds, and — with this port's 20200709 modification —
`_isDirectory` is `st_mode == 0` when valid, false otherwise. -/
def setFlags (fs : FS) (n : YuzaFilesystemNode) : YuzaFilesystemNode :=
  match statL fs n.path with
  | some m => { n with isValid := true, isDirectory := m == 0 }
  | none => { n with isValid := false, isDirectory := false }

/-- The `YuzaFilesystemNode(const Common::String &p)` constructor
(yuza-fs.cpp lines 86-152) on this port: store `normalizePath(p, '/')`, derive
the display name, and call `setFlags`.  The constructor asserts `p` nonempty;
every modelled call site establishes that. -/
def YuzaFilesystemNode.make (fs : FS) (p : String) : YuzaFilesystemNode :=
  let np := normalizeModel p
  setFlags fs { path := np, displayName := lastComponentModel np,
                isValid := false, isDirectory := false }

/-- `access(path, F_OK) == 0` (`YuzaFilesystemNode::exists`, yuza-fs.cpp line
65), modelled as metadata presence in the world. -/
def accessExists (fs : FS) (p : String) : Bool := (statL fs p).isSome

namespace Common

/-- Behaviour of the abstract underlying stream objects, indexed by stream id.
The stream classes are outside this slice; the file handles only delegate. -/
structure StreamEnv where
  errS : Nat → Bool
  eosS : Nat → Bool
  posS : Nat → Int
  sizeS : Nat → Int
  seekS : Nat → Int → Int → Bool
  readS : Nat → Nat → Nat
  writeS : Nat → Nat → Nat
  flushS : Nat → Bool

/-- An archive / search-path resolver as seen from `Common::File`: the
`hasFile` membership probe and the `createReadStreamForMember` opener
(`SearchMan` is one of these). -/
structure ArchiveM where
  hasFileF : String → Bool
  memberF : String → Option Nat

/-- `Common::File`: `_handle` (null when closed) plus the diagnostic name. -/
structure File where
  handle : Option Nat
  name : String
deriving DecidableEq

/-- `File::open(const String &filename, Archive &archive)` (file.cpp lines
45-60): assert the name nonempty and the handle closed; try the exact name,
then — only if that yielded no stream — the name with one trailing period
appended; delegate to `open(stream, filename)` which stores the stream and
name on success. -/
def File.openInArchive (arch : ArchiveM) (filename : String) (f : File) :
    Res (Bool × File) :=
  if filename = "" then Res.assertFail
  else
    match f.handle with
    | some _ => Res.assertFail
    | none =>
      let stream :=
        match arch.memberF filename with
        | some s => some s
        | none => arch.memberF (filename ++ ".")
      match stream with
      | some s => Res.ok (true, { f with handle := some s, name := filename })
      | none => Res.ok (false, f)

/-- `File::exists(const String &filename)` (file.cpp lines 90-100): the
`hasFile` probe on the exact name, then on the name with one trailing period
appended. -/
def File.existsIn (searchMan : ArchiveM) (filename : String) : Bool :=
  if searchMan.hasFileF filename then true
  else if searchMan.hasFileF (filename ++ ".") then true
  else false

/-- `File::close` (file.cpp lines 102-105): delete the stream, null the
handle. -/
def File.close (f : File) : File := { f with handle := none }

/-- `File::isOpen` (file.cpp line 107). -/
def File.isOpen (f : File) : Bool := f.handle.isSome

/-- `File::err` (file.cpp line 111): `assert(_handle)` then delegate. -/
def File.err (env : StreamEnv) (f : File) : Res Bool :=
  match f.handle with
  | none => Res.assertFail
  | some s => Res.ok (env.errS s)

/-- `File::clearErr` (file.cpp line 116): `assert(_handle)` then delegate. -/
def File.clearErr (f : File) : Res Unit :=
  match f.handle with
  | none => Res.assertFail
  | some _ => Res.ok ()

/-- `File::eos` (file.cpp line 121): `assert(_handle)` then delegate. -/
def File.eos (env : StreamEnv) (f : File) : Res Bool :=
  match f.handle with
  | none => Res.assertFail
  | some s => Res.ok (env.eosS s)

/-- `File::pos` (file.cpp line 126): `assert(_handle)` then delegate. -/
def File.pos (env : StreamEnv) (f : File) : Res Int :=
  match f.handle with
  | none => Res.assertFail
  | some s => Res.ok (env.posS s)

/-- `File::size` (file.cpp line 131): `assert(_handle)` then delegate. -/
def File.size (env : StreamEnv) (f : File) : Res Int :=
  match f.handle with
  | none => Res.assertFail
  | some s => Res.ok (env.sizeS s)

/-- `File::seek` (file.cpp line 136): `assert(_handle)` then delegate. -/
def File.seek (env : StreamEnv) (f : File) (offs : Int) (whence : Int) :
    Res Bool :=
  match f.handle with
  | none => Res.assertFail
  | some s => Res.ok (env.seekS s offs whence)

/-- `File::read` (file.cpp line 141): `assert(_handle)` then delegate. -/
def File.read (env : StreamEnv) (f : File) (len : Nat) : Res Nat :=
  match f.handle with
  | none => Res.assertFail
  | some s => Res.ok (env.readS s len)

/-- `Common::DumpFile`: the write handle. -/
structure DumpFile where
  handle : Option Nat
deriving DecidableEq

/-- `DumpFile::close` (file.cpp lines 195-198). -/
def DumpFile.close (d : DumpFile) : DumpFile := { handle := none }

/-- `DumpFile::isOpen` (file.cpp line 200). -/
def DumpFile.isOpen (d : DumpFile) : Bool := d.handle.isSome

/-- `DumpFile::err` (file.cpp line 204): `assert(_handle)` then delegate. -/
def DumpFile.err (env : StreamEnv) (d : DumpFile) : Res Bool :=
  match d.handle with
  | none => Res.assertFail
  | some s => Res.ok (env.errS s)

/-- `DumpFile::clearErr` (file.cpp line 209): `assert(_handle)` then
delegate. -/
def DumpFile.clearErr (d : DumpFile) : Res Unit :=
  match d.handle with
  | none => Res.assertFail
  | some _ => Res.ok ()

/-- `DumpFile::write` (file.cpp line 214): `assert(_handle)` then delegate. -/
def DumpFile.write (env : StreamEnv) (d : DumpFile) (len : Nat) : Res Nat :=
  match d.handle with
  | none => Res.assertFail
  | some s => Res.ok (env.writeS s len)

/-- `DumpFile::flush` (file.cpp line 219): `assert(_handle)` then delegate. -/
def DumpFile.flush (env : StreamEnv) (d : DumpFile) : Res Bool :=
  match d.handle with
  | none => Res.assertFail
  | some s => Res.ok (env.flushS s)

/-- `DumpFile::pos` (file.cpp line 224): `return _handle->pos();` — note
there is NO `assert(_handle)` here, unlike every other accessor; on a closed
handle this dereferences the null pointer. -/
def DumpFile.pos (env : StreamEnv) (d : DumpFile) : Res Int :=
  match d.handle with
  | none => Res.nullDeref
  | some s => Res.ok (env.posS s)

/-- `DumpFile::seek` (file.cpp lines 226-230): unconditionally
`return false;`. -/
def DumpFile.seek (d : DumpFile) (offset : Int) (whence : Int) : Bool := false

/-- `DumpFile::size` (file.cpp lines 232-236): unconditionally
`return -1;`. -/
def DumpFile.size (d : DumpFile) : Int := -1

end Common

/-- The `Common::FSNode::ListMode` filter passed to `getChildren`. -/
inductive ListMode where
  | kListFilesOnly : ListMode
  | kListDirectoriesOnly : ListMode
  | kListAll : ListMode
deriving DecidableEq

/-- The hidden-entry filter of `getChildren` (yuza-fs.cpp line 237):
`dp->d_name[0] == '.' && !hidden`. -/
def skipHidden (name : List Char) (hidden : Bool) : Bool :=
  match name with
  | c :: _ => c == '.' && !hidden
  | [] => false

/-- The dot-directory filter of `getChildren` (yuza-fs.cpp line 241):
`(d_name[0]=='.' && d_name[1]==0) || (d_name[0]=='.' && d_name[1]=='.')`.
The second disjunct has no terminator check, so it matches every name whose
first two characters are periods, not just "..". -/
def skipDotDirs (name : List Char) : Bool :=
  match name with
  | ['.'] => true
  | '.' :: '.' :: _ => true
  | _ => false

/-- Child path built by the enumeration loop (yuza-fs.cpp lines 248-250):
append '/' unless the parent path already ends in one, then the entry name. -/
def childPathOf (parentPath : String) (name : List Char) : String :=
  if parentPath.data.getLast? = some '/' then String.mk (parentPath.data ++ name)
  else String.mk (parentPath.data ++ '/' :: name)

/-- Per-entry body of the `readdir` loop of `YuzaFilesystemNode::getChildren`
(yuza-fs.cpp lines 235-301, SKYOS32 classification branch): apply the hidden
filter and the dot filter, clone this node with the child name/path, refresh
its flags with `setFlags` (a full `stat`), drop invalid entries, then apply
the `mode` filter. -/
def procEntry (fs : FS) (n : YuzaFilesystemNode) (mode : ListMode)
    (hidden : Bool) (name : List Char) : Option YuzaFilesystemNode :=
  if skipHidden name hidden then none
  else if skipDotDirs name then none
  else
    let entry := setFlags fs
      { n with displayName := String.mk name, path := childPathOf n.path name }
    if entry.isValid = false then none
    else if (mode = ListMode.kListFilesOnly ∧ entry.isDirectory = true) ∨
            (mode = ListMode.kListDirectoriesOnly ∧ entry.isDirectory = false)
    then none
    else some entry

/-- `YuzaFilesystemNode::getChildren` (yuza-fs.cpp lines 171-305):
`assert(_isDirectory)`; `dirResult` is what `opendir`/`readdir` produced for
this node's path (`none` = `opendir` returned NULL, in which case the call
returns false and `myList` is untouched); otherwise every surviving entry is
appended in order and the call returns true. -/
def YuzaFilesystemNode.getChildren (fs : FS)
    (dirResult : Option (List (List Char))) (n : YuzaFilesystemNode)
    (mode : ListMode) (hidden : Bool) (myList : List YuzaFilesystemNode) :
    Res (Bool × List YuzaFilesystemNode) :=
  if n.isDirectory = false then Res.assertFail
  else
    match dirResult with
    | none => Res.ok (false, myList)
    | some names =>
      Res.ok (true, myList ++ names.filterMap (procEntry fs n mode hidden))

/-- `YuzaFilesystemNode::getParent` (yuza-fs.cpp lines 307-338): null for the
root "/", null when the path has no separator (relative single component),
otherwise `makeNode` on the prefix up to and including the last separator —
and `makeNode` runs the node constructor, which re-normalizes that string. -/
def YuzaFilesystemNode.getParent (fs : FS) (n : YuzaFilesystemNode) :
    Option YuzaFilesystemNode :=
  if n.path = "/" then none
  else
    let keep := parentKeepChars n.path.data
    if keep = [] then none
    else some (YuzaFilesystemNode.make fs (String.mk keep))

/-- A second definition following claim C8's words ("returns a node whose path
is the original path with its final component stripped, with no
re-normalization performed"): identical to `getParent` except that the node
stores the stripped string as-is, skipping the constructor's
normalization. -/
def getParentClaimC8 (fs : FS) (n : YuzaFilesystemNode) :
    Option YuzaFilesystemNode :=
  if n.path = "/" then none
  else
    let keep := parentKeepChars n.path.data
    if keep = [] then none
    else some (setFlags fs
      { path := String.mk keep,
        displayName := lastComponentModel (String.mk keep),
        isValid := false, isDirectory := false })

/-- Outcome of `mkdir(path, 0)`: success, `errno == EEXIST`, or any other
error. -/
inductive MkR where
  | success : MkR
  | eexist : MkR
  | otherErr : MkR
deriving DecidableEq

/-- Can `mkdir` create `p` in world `fs`: its parent directory must exist (a
path with no separator is created in the working directory, and a direct
child of the root only needs the root). -/
def canCreate (fs : FS) (p : String) : Bool :=
  match parentKeepChars p.data with
  | [] => true
  | ['/'] => true
  | par => statL fs (String.mk par.dropLast) == some 0

/-- `mkdir(p, 0)` in world `fs`: EEXIST when the path is already present,
otherwise create it as a directory (`st_mode` 0 in this port) when the parent
exists, otherwise some other error.  Only a successful creation changes the
world. -/
def mkdirL (fs : FS) (p : String) : MkR × FS :=
  match statL fs p with
  | some _ => (MkR.eexist, fs)
  | none =>
    if canCreate fs p then (MkR.success, (p, 0) :: fs)
    else (MkR.otherErr, fs)

/-- `YuzaFilesystemNode::createDirectory` (yuza-fs.cpp lines 348-353): one
`mkdir` on the full stored path; `setFlags` (a fresh `stat`) runs only when
`mkdir` succeeded; the returned boolean is the cached
`_isValid && _isDirectory`. -/
def YuzaFilesystemNode.createDirectory (fs : FS) (n : YuzaFilesystemNode) :
    Bool × YuzaFilesystemNode × FS :=
  let r := mkdirL fs n.path
  let n2 := match r.1 with
    | MkR.success => setFlags r.2 n
    | _ => n
  (n2.isValid && n2.isDirectory, n2, r.2)

/-- The `mkdir` targets visited by the segment walk of
`Posix::assureDirectoryExists` (yuza-fs.cpp lines 381-415): `pre` holds the
characters before the cursor; a separator at a non-final position emits the
prefix before it (the in-place '\0' trick), and the final character's
iteration emits the whole path. -/
def walkAux (pre : List Char) : List Char → List String
  | [] => []
  | [c] => [String.mk (pre ++ [c])]
  | c :: c2 :: rest =>
    (if c = '/' then [String.mk pre] else []) ++
      walkAux (pre ++ [c]) (c2 :: rest)

/-- Target list for a whole path: a leading '/' is skipped as an emission
position (`if (*cur == '/') ++cur;`, yuza-fs.cpp line 383) but stays part of
every prefix. -/
def walkTargets (path : String) : List String :=
  match path.data with
  | '/' :: rest => walkAux ['/'] rest
  | cs => walkAux [] cs

/-- The creation loop of `Posix::assureDirectoryExists` over the target
prefixes: `mkdir` each; on EEXIST the fresh `stat` must succeed and (20200709
modification, yuza-fs.cpp line 405) report `st_mode == 0`; any other `mkdir`
error aborts with failure. -/
def adeRun : List String → FS → Bool × FS
  | [], fs => (true, fs)
  | t :: ts, fs =>
    match mkdirL fs t with
    | (MkR.success, fs2) => adeRun ts fs2
    | (MkR.eexist, fs2) =>
      match statL fs2 t with
      | none => (false, fs2)
      | some m => if m ≠ 0 then (false, fs2) else adeRun ts fs2
    | (MkR.otherErr, fs2) => (false, fs2)

namespace Posix

/-- `Posix::assureDirectoryExists(dir, prefixDir)` (yuza-fs.cpp lines
357-418): when a prefix is supplied it must `stat` successfully and satisfy
`S_ISDIR`; the concatenated path is normalized and walked segment by segment
with `mkdir`, treating EEXIST-of-a-directory as success. -/
def assureDirectoryExists (fs : FS) (dir : String) (prefixDir : Option String) :
    Bool × FS :=
  match prefixDir with
  | some pr =>
    match statL fs pr with
    | none => (false, fs)
    | some m =>
      if sIsDir m = false then (false, fs)
      else adeRun (walkTargets (normalizeModel (pr ++ "/" ++ dir))) fs
  | none => adeRun (walkTargets (normalizeModel dir)) fs

end Posix

namespace Common

/-- `DumpFile::openNode` — `DumpFile::open(const FSNode &node)` (file.cpp
lines 179-193): `assert(!_handle)`; a directory node fails immediately;
otherwise the result is exactly whether `createWriteStream` (abstracted as
`ws`, since `YuzaIoStream` is outside this slice) yields a stream. -/
def DumpFile.openNode (ws : FS → String → Option Nat) (fs : FS)
    (node : YuzaFilesystemNode) (d : DumpFile) : Res (Bool × DumpFile) :=
  match d.handle with
  | some _ => Res.assertFail
  | none =>
    if node.isDirectory then Res.ok (false, d)
    else
      match ws fs node.path with
      | some s => Res.ok (true, { handle := some s })
      | none => Res.ok (false, d)

/-- The `createPath` bootstrap loop of `DumpFile::open(filename, createPath)`
(file.cpp lines 158-173): at every '/' or '\\' in the filename, take the
prefix before it; skip it when empty or when the node for it already exists
(`access` probe); otherwise attempt `createDirectory` on it, counting a
warning (not a failure) when that returns false.  Returns the updated world
and the warning count. -/
def bootstrapGo (fs : FS) (pre : List Char) : List Char → FS × Nat
  | [] => (fs, 0)
  | c :: rest =>
    if c = '/' ∨ c = '\\' then
      if pre = [] then bootstrapGo fs (pre ++ [c]) rest
      else
        let node := YuzaFilesystemNode.make fs (String.mk pre)
        if accessExists fs node.path then bootstrapGo fs (pre ++ [c]) rest
        else
          let r := YuzaFilesystemNode.createDirectory fs node
          let next := bootstrapGo r.2.2 (pre ++ [c]) rest
          (next.1, (if r.1 then 0 else 1) + next.2)
    else bootstrapGo fs (pre ++ [c]) rest

/-- `DumpFile::open(const String &filename, bool createPath)` (file.cpp lines
154-177): assert the name nonempty and the handle closed; when `createPath`
run the bootstrap loop (warnings only); then construct `FSNode(filename)` and
return the verdict of `open(node)`.  The result carries the open flag, the
handle, the post-bootstrap world and the bootstrap warning count. -/
def DumpFile.openPath (ws : FS → String → Option Nat) (fs : FS)
    (filename : String) (createPath : Bool) (d : DumpFile) :
    Res (Bool × DumpFile × FS × Nat) :=
  if filename = "" then Res.assertFail
  else
    match d.handle with
    | some _ => Res.assertFail
    | none =>
      let bp := if createPath then bootstrapGo fs [] filename.data else (fs, 0)
      let node := YuzaFilesystemNode.make bp.1 filename
      match DumpFile.openNode ws bp.1 node d with
      | Res.ok r => Res.ok (r.1, r.2, bp.1, bp.2)
      | Res.assertFail => Res.assertFail
      | Res.nullDeref => Res.nullDeref

end Common

/-! ## Helper lemmas -/

lemma openInArchive_closed_eval (arch : Common.ArchiveM) (fn fname : String)
    (h1 : fn ≠ "") :
    Common.File.openInArchive arch fn ⟨none, fname⟩ =
      match (match arch.memberF fn with
             | some s => some s
             | none => arch.memberF (fn ++ ".")) with
      | some s => Res.ok (true, ⟨some s, fn⟩)
      | none => Res.ok (false, ⟨none, fname⟩) := by
  simp only [Common.File.openInArchive, if_neg h1]

lemma parentKeepChars_eq_nil_iff (cs : List Char) :
    parentKeepChars cs = [] ↔ '/' ∉ cs := by
  unfold parentKeepChars
  rw [List.reverse_eq_nil_iff, List.dropWhile_eq_nil_iff]
  constructor
  · intro h hm
    have := h '/' (List.mem_reverse.mpr hm)
    simp at this
  · intro h x hx
    have hx2 : x ∈ cs := List.mem_reverse.mp hx
    have : x ≠ '/' := fun he => h (he ▸ hx2)
    simpa using this

lemma make_path_eq (fs : FS) (p : String) :
    (YuzaFilesystemNode.make fs p).path = normalizeModel p := by
  unfold YuzaFilesystemNode.make setFlags
  cases h : statL fs (normalizeModel p) <;> simp [h]

/-! ## Claim theorems -/

/-- Concrete archive used by witnesses: only the member "GAMEPC." (with the
stray trailing period) is present. -/
def archC1 : Common.ArchiveM :=
  ⟨fun s => s == "GAMEPC.", fun s => if s = "GAMEPC." then some 7 else none⟩

/-- Concrete stream environment used by witnesses. -/
def env0 : Common.StreamEnv :=
  ⟨fun _ => false, fun _ => false, fun _ => 0, fun _ => 0,
   fun _ _ _ => false, fun _ _ => 0, fun _ _ => 0, fun _ => false⟩

/-- C1: `File::open(filename, archive)` and `File::exists` first try the exact
name and, only if that lookup yields nothing, retry with exactly one trailing
period appended; the call succeeds iff one of these two lookups succeeds, and
the outcome depends on no other name variant. -/
theorem c1_trailing_dot_fallback (arch : Common.ArchiveM) (fn : String)
    (f : Common.File) (h1 : fn ≠ "") (h2 : f.handle = none) :
    (∃ b f2, Common.File.openInArchive arch fn f = Res.ok (b, f2) ∧
      (b = true ↔ ((arch.memberF fn).isSome = true ∨
                   (arch.memberF (fn ++ ".")).isSome = true))) ∧
    (∀ s, arch.memberF fn = some s →
      Common.File.openInArchive arch fn f =
        Res.ok (true, { f with handle := some s, name := fn })) ∧
    (∀ s, arch.memberF fn = none → arch.memberF (fn ++ ".") = some s →
      Common.File.openInArchive arch fn f =
        Res.ok (true, { f with handle := some s, name := fn })) ∧
    (arch.memberF fn = none → arch.memberF (fn ++ ".") = none →
      Common.File.openInArchive arch fn f = Res.ok (false, f)) ∧
    (Common.File.existsIn arch fn = true ↔
      (arch.hasFileF fn = true ∨ arch.hasFileF (fn ++ ".") = true)) ∧
    (∀ arch2 : Common.ArchiveM, arch2.memberF fn = arch.memberF fn →
      arch2.memberF (fn ++ ".") = arch.memberF (fn ++ ".") →
      Common.File.openInArchive arch2 fn f = Common.File.openInArchive arch fn f) ∧
    (∀ arch2 : Common.ArchiveM, arch2.hasFileF fn = arch.hasFileF fn →
      arch2.hasFileF (fn ++ ".") = arch.hasFileF (fn ++ ".") →
      Common.File.existsIn arch2 fn = Common.File.existsIn arch fn) := by
  rcases f with ⟨fh, fname⟩
  simp only at h2
  subst h2
  refine ⟨?_, ?_, ?_, ?_, ?_, ?_, ?_⟩
  · rw [openInArchive_closed_eval arch fn fname h1]
    cases hm : arch.memberF fn with
    | some s => exact ⟨true, ⟨some s, fn⟩, by simp, by simp [hm]⟩
    | none =>
      cases hm2 : arch.memberF (fn ++ ".") with
      | some s => exact ⟨true, ⟨some s, fn⟩, by simp, by simp [hm, hm2]⟩
      | none => exact ⟨false, ⟨none, fname⟩, by simp, by simp [hm, hm2]⟩
  · intro s hm
    rw [openInArchive_closed_eval arch fn fname h1, hm]
  · intro s hm hm2
    rw [openInArchive_closed_eval arch fn fname h1, hm, hm2]
  · intro hm hm2
    rw [openInArchive_closed_eval arch fn fname h1, hm, hm2]
  · cases hf : arch.hasFileF fn <;> cases hf2 : arch.hasFileF (fn ++ ".") <;>
      simp [Common.File.existsIn, hf, hf2]
  · intro arch2 e1 e2
    rw [openInArchive_closed_eval arch fn fname h1,
        openInArchive_closed_eval arch2 fn fname h1, e1, e2]
  · intro arch2 e1 e2
    simp only [Common.File.existsIn, e1, e2]

/-- C1 witness: exact lookup of "GAMEPC" misses, the trailing-dot retry hits
member "GAMEPC.", so the open succeeds and the existence probe reports
true. -/
theorem c1_trailing_dot_fallback_witness :
    Common.File.openInArchive archC1 "GAMEPC" ⟨none, ""⟩ =
      Res.ok (true, ⟨some 7, "GAMEPC"⟩) ∧
    Common.File.existsIn archC1 "GAMEPC" = true := by
  have h := c1_trailing_dot_fallback archC1 "GAMEPC" ⟨none, ""⟩ (by decide) rfl
  exact ⟨h.2.2.1 7 (by decide) (by decide), h.2.2.2.2.1.mpr (Or.inr (by decide))⟩

/-- C5: `getChildren` returns false exactly when `opendir` on the node's own
path failed, and a false return leaves the caller's list exactly as it was
(no partial results are appended). -/
theorem c5_getChildren_failure_frame (fs : FS)
    (dirResult : Option (List (List Char))) (n : YuzaFilesystemNode)
    (mode : ListMode) (hidden : Bool) (myList : List YuzaFilesystemNode)
    (h : n.isDirectory = true) :
    ∃ b l2,
      YuzaFilesystemNode.getChildren fs dirResult n mode hidden myList =
        Res.ok (b, l2) ∧
      (b = false ↔ dirResult = none) ∧ (b = false → l2 = myList) := by
  unfold YuzaFilesystemNode.getChildren
  rw [h]
  cases dirResult with
  | none => exact ⟨false, myList, by simp, by simp, fun _ => rfl⟩
  | some names =>
    exact ⟨true, myList ++ names.filterMap (procEntry fs n mode hidden),
      by simp, by simp, by simp⟩

/-- C5 witness: on a directory node whose `opendir` failed, the call reports
false and returns the input list unchanged. -/
theorem c5_getChildren_failure_frame_witness :
    ∃ b l2,
      YuzaFilesystemNode.getChildren [] none ⟨"/d", "d", true, true⟩
        ListMode.kListAll false [⟨"/e", "e", true, true⟩] = Res.ok (b, l2) ∧
      (b = false ↔ (none : Option (List (List Char))) = none) ∧
      (b = false → l2 = [⟨"/e", "e", true, true⟩]) :=
  c5_getChildren_failure_frame [] none ⟨"/d", "d", true, true⟩
    ListMode.kListAll false [⟨"/e", "e", true, true⟩] rfl

/-- C6 counterexample: `DumpFile::pos` has no `assert(_handle)` — on a closed
write handle it dereferences the null stream pointer instead of tripping an
assertion, so the claim that every listed accessor asserts is false. -/
theorem c6_dumpfile_pos_counterexample :
    Common.DumpFile.pos env0 ⟨none⟩ ≠ Res.assertFail ∧
    Common.DumpFile.pos env0 ⟨none⟩ = Res.nullDeref := by decide

/-- C6 amended: on a closed handle every listed accessor of `File` and the
`err`/`clearErr`/`write`/`flush` accessors of `DumpFile` fail the
`assert(_handle)` assertion, while `DumpFile::pos` — which lacks the assert —
dereferences the null handle; none of them returns a recoverable result. -/
theorem c6_closed_handle_accessors (env : Common.StreamEnv) (f : Common.File)
    (d : Common.DumpFile) (hf : f.handle = none) (hd : d.handle = none) :
    Common.File.err env f = Res.assertFail ∧
    Common.File.clearErr f = Res.assertFail ∧
    Common.File.eos env f = Res.assertFail ∧
    Common.File.pos env f = Res.assertFail ∧
    Common.File.size env f = Res.assertFail ∧
    (∀ offs whence, Common.File.seek env f offs whence = Res.assertFail) ∧
    (∀ len, Common.File.read env f len = Res.assertFail) ∧
    Common.DumpFile.err env d = Res.assertFail ∧
    Common.DumpFile.clearErr d = Res.assertFail ∧
    (∀ len, Common.DumpFile.write env d len = Res.assertFail) ∧
    Common.DumpFile.flush env d = Res.assertFail ∧
    Common.DumpFile.pos env d = Res.nullDeref := by
  rcases f with ⟨fh, fname⟩
  rcases d with ⟨dh⟩
  simp only at hf hd
  subst hf
  subst hd
  exact ⟨rfl, rfl, rfl, rfl, rfl, fun _ _ => rfl, fun _ => rfl, rfl, rfl,
    fun _ => rfl, rfl, rfl⟩

/-- C6 witness: concrete closed handles under the concrete environment. -/
theorem c6_closed_handle_accessors_witness :
    Common.File.err env0 ⟨none, ""⟩ = Res.assertFail ∧
    Common.DumpFile.pos env0 ⟨none⟩ = Res.nullDeref := by
  have h := c6_closed_handle_accessors env0 ⟨none, ""⟩ ⟨none⟩ rfl rfl
  exact ⟨h.1, h.2.2.2.2.2.2.2.2.2.2.2⟩

/-- C9: each handle keeps at most one stream (the single `_handle` slot);
opening an already-open handle trips the assert; close nulls the handle and
makes `isOpen` false; and a closed-then-reopened handle opens successfully
when the underlying lookup or stream creation succeeds. -/
theorem c9_handle_lifecycle :
    (∀ (arch : Common.ArchiveM) (fn : String) (f : Common.File) (s : Nat),
      f.handle = some s →
      Common.File.openInArchive arch fn f = Res.assertFail) ∧
    (∀ f : Common.File,
      (Common.File.close f).handle = none ∧
      (Common.File.close f).isOpen = false) ∧
    (∀ (arch : Common.ArchiveM) (fn : String) (f : Common.File) (s2 : Nat),
      fn ≠ "" → arch.memberF fn = some s2 →
      Common.File.openInArchive arch fn (Common.File.close f) =
        Res.ok (true, { f with handle := some s2, name := fn })) ∧
    (∀ (ws : FS → String → Option Nat) (fs : FS) (node : YuzaFilesystemNode)
      (d : Common.DumpFile) (s : Nat), d.handle = some s →
      Common.DumpFile.openNode ws fs node d = Res.assertFail) ∧
    (∀ d : Common.DumpFile,
      (Common.DumpFile.close d).handle = none ∧
      (Common.DumpFile.close d).isOpen = false) ∧
    (∀ (ws : FS → String → Option Nat) (fs : FS) (node : YuzaFilesystemNode)
      (d : Common.DumpFile) (s2 : Nat),
      node.isDirectory = false → ws fs node.path = some s2 →
      Common.DumpFile.openNode ws fs node (Common.DumpFile.close d) =
        Res.ok (true, ⟨some s2⟩)) := by
  refine ⟨?_, ?_, ?_, ?_, ?_, ?_⟩
  · intro arch fn f s hs
    unfold Common.File.openInArchive
    rw [hs]
    by_cases hfn : fn = "" <;> simp [hfn]
  · intro f
    exact ⟨rfl, rfl⟩
  · intro arch fn f s2 hfn hm
    rcases f with ⟨fh, fname⟩
    unfold Common.File.close Common.File.openInArchive
    simp [hfn, hm]
  · intro ws fs node d s hs
    unfold Common.DumpFile.openNode
    rw [hs]
  · intro d
    exact ⟨rfl, rfl⟩
  · intro ws fs node d s2 hdir hws
    unfold Common.DumpFile.close Common.DumpFile.openNode
    simp [hdir, hws]

/-- C9 witness: opening an open read handle asserts; after close the same
handle opens again on an available member; likewise for the write handle. -/
theorem c9_handle_lifecycle_witness :
    Common.File.openInArchive archC1 "GAMEPC" ⟨some 3, "x"⟩ = Res.assertFail ∧
    Common.File.openInArchive archC1 "GAMEPC."
      (Common.File.close ⟨some 3, "x"⟩) = Res.ok (true, ⟨some 7, "GAMEPC."⟩) ∧
    Common.DumpFile.openNode (fun _ p => if p = "d/f" then some 4 else none) []
      ⟨"d/f", "f", false, false⟩ ⟨some 9⟩ = Res.assertFail ∧
    Common.DumpFile.openNode (fun _ p => if p = "d/f" then some 4 else none) []
      ⟨"d/f", "f", false, false⟩ (Common.DumpFile.close ⟨some 9⟩) =
      Res.ok (true, ⟨some 4⟩) := by
  have h := c9_handle_lifecycle
  exact ⟨h.1 archC1 "GAMEPC" ⟨some 3, "x"⟩ 3 rfl,
    h.2.2.1 archC1 "GAMEPC." ⟨some 3, "x"⟩ 7 (by decide) (by decide),
    h.2.2.2.1 _ [] ⟨"d/f", "f", false, false⟩ ⟨some 9⟩ 9 rfl,
    h.2.2.2.2.2 _ [] ⟨"d/f", "f", false, false⟩ ⟨some 9⟩ 4 rfl (by decide)⟩

/-- C10: `DumpFile::seek` returns false and `DumpFile::size` returns -1 in
every state and for every argument, while the read handle's `seek`/`size`
delegate to the underlying stream when open. -/
theorem c10_dumpfile_seek_size :
    (∀ (d : Common.DumpFile) (offset whence : Int),
      Common.DumpFile.seek d offset whence = false) ∧
    (∀ d : Common.DumpFile, Common.DumpFile.size d = -1) ∧
    (∀ (env : Common.StreamEnv) (f : Common.File) (s : Nat)
      (offs whence : Int), f.handle = some s →
      Common.File.seek env f offs whence = Res.ok (env.seekS s offs whence)) ∧
    (∀ (env : Common.StreamEnv) (f : Common.File) (s : Nat),
      f.handle = some s →
      Common.File.size env f = Res.ok (env.sizeS s)) := by
  refine ⟨fun _ _ _ => rfl, fun _ => rfl, ?_, ?_⟩
  · intro env f s offs whence hs
    unfold Common.File.seek
    rw [hs]
  · intro env f s hs
    unfold Common.File.size
    rw [hs]

/-- C10 witness: concrete write handle refuses to seek and reports size -1;
a concrete open read handle's seek delegates to the stream. -/
theorem c10_dumpfile_seek_size_witness :
    Common.DumpFile.seek ⟨some 2⟩ 5 1 = false ∧
    Common.DumpFile.size ⟨some 2⟩ = -1 ∧
    Common.File.seek env0 ⟨some 2, ""⟩ 5 1 = Res.ok false := by
  have h := c10_dumpfile_seek_size
  exact ⟨h.1 ⟨some 2⟩ 5 1, h.2.1 ⟨some 2⟩, h.2.2.1 env0 ⟨some 2, ""⟩ 2 5 1 rfl⟩

/-- C3 evidence: with `includeHidden = true` the enumeration skips the entry
named "..x" — the dot-directory filter at yuza-fs.cpp line 241 tests only the
first two characters, so every name beginning ".." is excluded, not just
"." and ".." — even though the entry stats as a valid directory and the
hidden filter lets it through. -/
theorem c3_dotdot_prefix_skipped_bug :
    YuzaFilesystemNode.getChildren [("/d/..x", 0)] (some [['.', '.', 'x']])
      ⟨"/d", "d", true, true⟩ ListMode.kListAll true [] = Res.ok (true, []) ∧
    skipDotDirs ['.', '.', 'x'] = true ∧
    skipHidden ['.', '.', 'x'] true = false ∧
    (setFlags [("/d/..x", 0)]
      ⟨"/d/..x", "..x", true, true⟩).isValid = true := by decide

/-- C4 counterexample: a node whose cached flags say "valid directory" but
whose path now holds a non-directory (`st_mode` 5): `mkdir` fails with
EEXIST, `setFlags` is NOT re-run, and `createDirectory` returns true even
though a fresh metadata probe after the attempt would report a
non-directory. -/
theorem c4_createDirectory_counterexample :
    (YuzaFilesystemNode.createDirectory [("p", 5)] ⟨"p", "p", true, true⟩).1 =
      true ∧
    statL (YuzaFilesystemNode.createDirectory [("p", 5)]
      ⟨"p", "p", true, true⟩).2.2 "p" = some 5 ∧
    (5 : Nat) ≠ 0 := by decide

/-- C4 amended: `createDirectory` issues one `mkdir` on the full stored path
(no other path is touched); when `mkdir` succeeds the flags are refreshed by
a fresh `stat` and the call returns true with the path now a directory; when
`mkdir` fails the call returns the construction-time cached
`_isValid && _isDirectory` with the world unchanged — no fresh probe. -/
theorem c4_createDirectory_amended (fs : FS) (n : YuzaFilesystemNode) :
    (∀ q, q ≠ n.path →
      statL (YuzaFilesystemNode.createDirectory fs n).2.2 q = statL fs q) ∧
    ((mkdirL fs n.path).1 = MkR.success →
      (YuzaFilesystemNode.createDirectory fs n).1 = true ∧
      statL (YuzaFilesystemNode.createDirectory fs n).2.2 n.path = some 0) ∧
    ((mkdirL fs n.path).1 ≠ MkR.success →
      (YuzaFilesystemNode.createDirectory fs n).1 =
        (n.isValid && n.isDirectory) ∧
      (YuzaFilesystemNode.createDirectory fs n).2.2 = fs) := by
  unfold YuzaFilesystemNode.createDirectory mkdirL
  cases hst : statL fs n.path with
  | some m =>
    refine ⟨fun q _ => rfl, ?_, fun _ => ⟨rfl, rfl⟩⟩
    intro hsucc
    simp at hsucc
  | none =>
    by_cases hcc : canCreate fs n.path
    · simp only [hcc, if_true]
      refine ⟨?_, ?_, ?_⟩
      · intro q hq
        simp only [statL]
        rw [if_neg (fun he => hq he.symm)]
      · intro _
        constructor
        · unfold setFlags
          simp [statL]
        · simp [statL]
      · intro hns
        simp at hns
    · simp only [hcc, if_false]
      exact ⟨fun q _ => rfl, fun hsucc => by simp at hsucc,
        fun _ => ⟨rfl, rfl⟩⟩

/-- C4 amended witness: creating a fresh directory "q" in the empty world
succeeds and the fresh probe confirms a directory. -/
theorem c4_createDirectory_amended_witness :
    (YuzaFilesystemNode.createDirectory [] ⟨"q", "q", false, false⟩).1 = true ∧
    statL (YuzaFilesystemNode.createDirectory []
      ⟨"q", "q", false, false⟩).2.2 "q" = some 0 :=
  (c4_createDirectory_amended [] ⟨"q", "q", false, false⟩).2.1 (by decide)

/-- C8 counterexample: for the node "/a/b" the literal stripped string kept
by the code is "/a/" (up to and including the last separator); the claim's
no-re-normalization reading (`getParentClaimC8`) would store "/a/", but the
real `getParent` hands the string to the node constructor, whose
normalization turns it into "/a" — so re-normalization IS performed and the
stored parent path is not the stripped string. -/
theorem c8_getParent_counterexample :
    (YuzaFilesystemNode.getParent [] ⟨"/a/b", "b", true, true⟩).map
      YuzaFilesystemNode.path = some "/a" ∧
    (getParentClaimC8 [] ⟨"/a/b", "b", true, true⟩).map
      YuzaFilesystemNode.path = some "/a/" ∧
    ("/a" : String) ≠ "/a/" := by decide

/-- C8 amended: `getParent` returns none exactly for the root "/" or a path
with no separator; otherwise it returns the node constructed from the prefix
up to and including the last separator — and the constructor re-normalizes
that string, so the stored parent path is the normalization of the stripped
prefix (the trailing separator is removed). -/
theorem c8_getParent_amended :
    (∀ (fs : FS) (n : YuzaFilesystemNode),
      YuzaFilesystemNode.getParent fs n = none ↔
        (n.path = "/" ∨ '/' ∉ n.path.data)) ∧
    (∀ (fs : FS) (n : YuzaFilesystemNode), n.path ≠ "/" → '/' ∈ n.path.data →
      YuzaFilesystemNode.getParent fs n =
        some (YuzaFilesystemNode.make fs
          (String.mk (parentKeepChars n.path.data)))) ∧
    (∀ (fs : FS) (p : String),
      (YuzaFilesystemNode.make fs p).path = normalizeModel p) := by
  refine ⟨?_, ?_, make_path_eq⟩
  · intro fs n
    unfold YuzaFilesystemNode.getParent
    by_cases hroot : n.path = "/"
    · simp [hroot]
    · rw [if_neg hroot]
      by_cases hkeep : parentKeepChars n.path.data = []
      · simp [hkeep, hroot, (parentKeepChars_eq_nil_iff n.path.data).mp hkeep]
      · have hmem : '/' ∈ n.path.data := by
          by_contra hmm
          exact hkeep ((parentKeepChars_eq_nil_iff n.path.data).mpr hmm)
        simp [hkeep, hroot, hmem]
  · intro fs n hroot hmem
    unfold YuzaFilesystemNode.getParent
    rw [if_neg hroot]
    have hkeep : parentKeepChars n.path.data ≠ [] := by
      intro he
      exact (parentKeepChars_eq_nil_iff n.path.data).mp he hmem
    rw [if_neg hkeep]

/-- C8 amended witness: the parent of "/a/b" is the node built from the
stripped prefix "/a/", whose normalized stored path is "/a". -/
theorem c8_getParent_amended_witness :
    YuzaFilesystemNode.getParent [] ⟨"/a/b", "b", true, true⟩ =
      some (YuzaFilesystemNode.make []
        (String.mk (parentKeepChars ("/a/b" : String).data))) ∧
    (YuzaFilesystemNode.make [] "/a/").path = normalizeModel "/a/" := by
  have h := c8_getParent_amended
  exact ⟨h.2.1 [] ⟨"/a/b", "b", true, true⟩ (by decide) (by decide),
    h.2.2 [] "/a/"⟩

/-- Entries already present in the world survive a run of the creation loop:
the loop only ever inserts fresh paths. -/
lemma adeRun_mono (ts : List String) :
    ∀ (fs fs2 : FS) (b : Bool), adeRun ts fs = (b, fs2) →
    ∀ p m, statL fs p = some m → statL fs2 p = some m := by
  induction ts with
  | nil =>
    intro fs fs2 b h p m hm
    simp only [adeRun] at h
    injection h with h1 h2
    subst h2
    exact hm
  | cons t ts ih =>
    intro fs fs2 b h p m hm
    simp only [adeRun, mkdirL] at h
    cases hst : statL fs t with
    | some m0 =>
      simp only [hst] at h
      by_cases hm0 : m0 = 0
      · rw [if_neg (fun hne => hne hm0)] at h
        exact ih fs fs2 b h p m hm
      · rw [if_pos hm0] at h
        injection h with h1 h2
        subst h2
        exact hm
    | none =>
      simp only [hst] at h
      cases hcc : canCreate fs t with
      | true =>
        simp only [hcc, if_true] at h
        refine ih ((t, 0) :: fs) fs2 b h p m ?_
        simp only [statL]
        rw [if_neg ?_]
        · exact hm
        · intro he
          rw [he, hm] at hst
          cases hst
      | false =>
        simp only [hcc, if_false] at h
        injection h with h1 h2
        subst h2
        exact hm

/-- After a successful run of the creation loop, every visited target exists
as a directory (`st_mode` 0). -/
lemma adeRun_true_all (ts : List String) :
    ∀ (fs fs2 : FS), adeRun ts fs = (true, fs2) →
    ∀ t0, t0 ∈ ts → statL fs2 t0 = some 0 := by
  induction ts with
  | nil =>
    intro fs fs2 _ t0 ht
    cases ht
  | cons t ts ih =>
    intro fs fs2 h t0 ht
    simp only [adeRun, mkdirL] at h
    cases hst : statL fs t with
    | some m0 =>
      simp only [hst] at h
      by_cases hm0 : m0 = 0
      · rw [if_neg (fun hne => hne hm0)] at h
        rcases List.mem_cons.mp ht with rfl | hmem
        · exact adeRun_mono ts fs fs2 true h t0 0 (hm0 ▸ hst)
        · exact ih fs fs2 h t0 hmem
      · rw [if_pos hm0] at h
        injection h with h1 _
        cases h1
    | none =>
      simp only [hst] at h
      cases hcc : canCreate fs t with
      | true =>
        simp only [hcc, if_true] at h
        rcases List.mem_cons.mp ht with rfl | hmem
        · refine adeRun_mono ts ((t0, 0) :: fs) fs2 true h t0 0 ?_
          simp [statL]
        · exact ih ((t, 0) :: fs) fs2 h t0 hmem
      | false =>
        simp only [hcc, if_false] at h
        injection h with h1 _
        cases h1

/-- When every target already exists as a directory, the creation loop
succeeds without changing the world. -/
lemma adeRun_stable (ts : List String) :
    ∀ fs : FS, (∀ t0, t0 ∈ ts → statL fs t0 = some 0) →
    adeRun ts fs = (true, fs) := by
  induction ts with
  | nil =>
    intro fs _
    rfl
  | cons t ts ih =>
    intro fs hall
    have ht : statL fs t = some 0 := hall t (List.mem_cons_self t ts)
    simp only [adeRun, mkdirL, ht]
    rw [if_neg (fun hne => hne rfl)]
    exact ih fs (fun t0 hm => hall t0 (List.mem_cons_of_mem t hm))

/-- C2: `Posix::assureDirectoryExists` is idempotent — whenever a call
succeeds, repeating it on the resulting world succeeds again and leaves the
world (the set of directories present) unchanged: every segment then exists
as a directory and each `mkdir` lands in the EEXIST-of-a-directory branch. -/
theorem c2_assureDirectoryExists_idempotent (fs : FS) (dir : String)
    (prefixDir : Option String) (fs2 : FS)
    (h : Posix.assureDirectoryExists fs dir prefixDir = (true, fs2)) :
    Posix.assureDirectoryExists fs2 dir prefixDir = (true, fs2) := by
  cases prefixDir with
  | none =>
    simp only [Posix.assureDirectoryExists] at h ⊢
    exact adeRun_stable _ fs2 (adeRun_true_all _ fs fs2 h)
  | some pr =>
    simp only [Posix.assureDirectoryExists] at h ⊢
    cases hst : statL fs pr with
    | none =>
      simp only [hst] at h
      injection h with h1 _
      cases h1
    | some m =>
      simp only [hst] at h
      by_cases hsd : sIsDir m = false
      · rw [if_pos hsd] at h
        injection h with h1 _
        cases h1
      · rw [if_neg hsd] at h
        have hpr2 : statL fs2 pr = some m :=
          adeRun_mono _ fs fs2 true h pr m hst
        simp only [hpr2]
        rw [if_neg hsd]
        exact adeRun_stable _ fs2 (adeRun_true_all _ fs fs2 h)

/-- C2 witness: creating "a/b/c" in the empty world succeeds, and the second
call on the resulting world succeeds and leaves the same three directories
present. -/
theorem c2_assureDirectoryExists_idempotent_witness :
    Posix.assureDirectoryExists [("a/b/c", 0), ("a/b", 0), ("a", 0)]
      "a/b/c" none = (true, [("a/b/c", 0), ("a/b", 0), ("a", 0)]) :=
  c2_assureDirectoryExists_idempotent [] "a/b/c" none
    [("a/b/c", 0), ("a/b", 0), ("a", 0)] (by decide)

/-- C7: in `DumpFile::open(filename, createPath=true)` a failed intermediate
directory creation only increments the warning count — the call always
proceeds to the node open, its verdict is exactly the verdict of
`open(node)` on the post-bootstrap world, and that verdict is true iff the
target node is not a directory and the write-stream open yields a stream. -/
theorem c7_dumpfile_createpath_nonfatal (ws : FS → String → Option Nat)
    (fs : FS) (filename : String) (d : Common.DumpFile)
    (h1 : filename ≠ "") (h2 : d.handle = none) :
    ∃ b d2,
      Common.DumpFile.openPath ws fs filename true d =
        Res.ok (b, d2, (Common.bootstrapGo fs [] filename.data).1,
                (Common.bootstrapGo fs [] filename.data).2) ∧
      Common.DumpFile.openNode ws (Common.bootstrapGo fs [] filename.data).1
        (YuzaFilesystemNode.make (Common.bootstrapGo fs [] filename.data).1
          filename) d = Res.ok (b, d2) ∧
      (b = true ↔
        ((YuzaFilesystemNode.make (Common.bootstrapGo fs [] filename.data).1
            filename).isDirectory = false ∧
         (ws (Common.bootstrapGo fs [] filename.data).1
            (YuzaFilesystemNode.make (Common.bootstrapGo fs [] filename.data).1
              filename).path).isSome = true)) := by
  rcases d with ⟨dh⟩
  simp only at h2
  subst h2
  cases hdir : (YuzaFilesystemNode.make
      (Common.bootstrapGo fs [] filename.data).1 filename).isDirectory with
  | true =>
    refine ⟨false, ⟨none⟩, ?_, ?_, by simp [hdir]⟩
    · simp [Common.DumpFile.openPath, Common.DumpFile.openNode, h1, hdir]
    · simp [Common.DumpFile.openNode, hdir]
  | false =>
    cases hws : ws (Common.bootstrapGo fs [] filename.data).1
        (YuzaFilesystemNode.make (Common.bootstrapGo fs [] filename.data).1
          filename).path with
    | some s =>
      refine ⟨true, ⟨some s⟩, ?_, ?_, by simp [hws, hdir]⟩
      · simp [Common.DumpFile.openPath, Common.DumpFile.openNode, h1, hdir, hws]
      · simp [Common.DumpFile.openNode, hdir, hws]
    | none =>
      refine ⟨false, ⟨none⟩, ?_, ?_, by simp [hws]⟩
      · simp [Common.DumpFile.openPath, Common.DumpFile.openNode, h1, hdir, hws]
      · simp [Common.DumpFile.openNode, hdir, hws]

/-- Concrete write-stream opener used by the C7 witness. -/
def wsC7 : FS → String → Option Nat :=
  fun _ p => if p = "d/f" then some 3 else none

/-- C7 witness: opening "d/f" with createPath in the empty world bootstraps
the directory "d" and the verdict is the node-open verdict on the
post-bootstrap world. -/
theorem c7_dumpfile_createpath_nonfatal_witness :
    ∃ b d2,
      Common.DumpFile.openPath wsC7 [] "d/f" true ⟨none⟩ =
        Res.ok (b, d2, (Common.bootstrapGo [] [] ("d/f" : String).data).1,
                (Common.bootstrapGo [] [] ("d/f" : String).data).2) ∧
      Common.DumpFile.openNode wsC7 (Common.bootstrapGo [] [] ("d/f" : String).data).1
        (YuzaFilesystemNode.make (Common.bootstrapGo [] [] ("d/f" : String).data).1
          "d/f") ⟨none⟩ = Res.ok (b, d2) ∧
      (b = true ↔
        ((YuzaFilesystemNode.make (Common.bootstrapGo [] [] ("d/f" : String).data).1
            "d/f").isDirectory = false ∧
         (wsC7 (Common.bootstrapGo [] [] ("d/f" : String).data).1
            (YuzaFilesystemNode.make (Common.bootstrapGo [] [] ("d/f" : String).data).1
              "d/f").path).isSome = true)) :=
  c7_dumpfile_createpath_nonfatal wsC7 [] "d/f" ⟨none⟩ (by decide) rfl
